import Mathlib

set_option maxRecDepth 1000000

/-
  Shallow embedding of src/src/common/hash.rs (a VMess-AEAD-style KDF built
  from an HMAC-like recursive hash over SHA-256), together with the external
  hash primitives the source uses (the sha2 crate's SHA-256 and the md5
  crate's MD5, both modelled from their public standards, FIPS 180-4 and
  RFC 1321). Bytes are Nat values < 256; 32-bit machine words are Nat with
  explicit reduction modulo 2^32.
-/

/-- 2^32, the modulus for 32-bit machine arithmetic. -/
def w32 : Nat := 4294967296

/-- Addition of 32-bit words. -/
def add32 (a b : Nat) : Nat := (a + b) % w32

/-- Right rotation of a 32-bit word by n bits. -/
def rotr32 (n x : Nat) : Nat := ((x >>> n) ||| (x <<< (32 - n))) % w32

/-- Left rotation of a 32-bit word by n bits. -/
def rotl32 (n x : Nat) : Nat := ((x <<< n) ||| (x >>> (32 - n))) % w32

/-- Big-endian decoding of bytes into 32-bit words (SHA-256 convention). -/
def bytesToWordsBE : List Nat → List Nat
  | b0 :: b1 :: b2 :: b3 :: rest =>
      (b0 * 16777216 + b1 * 65536 + b2 * 256 + b3) :: bytesToWordsBE rest
  | _ => []

/-- Little-endian decoding of bytes into 32-bit words (MD5 convention). -/
def bytesToWordsLE : List Nat → List Nat
  | b0 :: b1 :: b2 :: b3 :: rest =>
      (b0 + b1 * 256 + b2 * 65536 + b3 * 16777216) :: bytesToWordsLE rest
  | _ => []

/-- Big-endian encoding of one 32-bit word as four bytes. -/
def word32ToBytesBE (x : Nat) : List Nat :=
  [(x >>> 24) % 256, (x >>> 16) % 256, (x >>> 8) % 256, x % 256]

/-- Little-endian encoding of one 32-bit word as four bytes. -/
def word32ToBytesLE (x : Nat) : List Nat :=
  [x % 256, (x >>> 8) % 256, (x >>> 16) % 256, (x >>> 24) % 256]

/-- Big-endian encoding of a 64-bit length as eight bytes. -/
def lenBytesBE (n : Nat) : List Nat :=
  [(n >>> 56) % 256, (n >>> 48) % 256, (n >>> 40) % 256, (n >>> 32) % 256,
   (n >>> 24) % 256, (n >>> 16) % 256, (n >>> 8) % 256, n % 256]

/-- Little-endian encoding of a 64-bit length as eight bytes. -/
def lenBytesLE (n : Nat) : List Nat :=
  [n % 256, (n >>> 8) % 256, (n >>> 16) % 256, (n >>> 24) % 256,
   (n >>> 32) % 256, (n >>> 40) % 256, (n >>> 48) % 256, (n >>> 56) % 256]

/-- Merkle–Damgard padding: 0x80, zeros to 56 mod 64, then the 8-byte bit
length encoded by the given function. -/
def mdPad (enc : Nat → List Nat) (msg : List Nat) : List Nat :=
  msg ++ [128] ++ List.replicate ((119 - msg.length % 64) % 64) 0
      ++ enc (msg.length * 8)

/-- Split a byte list into n blocks of 64 bytes. -/
def takeBlocks : Nat → List Nat → List (List Nat)
  | 0, _ => []
  | n + 1, l => l.take 64 :: takeBlocks n (l.drop 64)

/-- The eight working registers of SHA-256. -/
structure Sha256Regs where
  a : Nat
  b : Nat
  c : Nat
  d : Nat
  e : Nat
  f : Nat
  g : Nat
  h : Nat

/-- SHA-256 round constants (FIPS 180-4). -/
def shaK : List Nat :=
  [1116352408, 1899447441, 3049323471, 3921009573, 961987163, 1508970993, 2453635748, 2870763221,
   3624381080, 310598401, 607225278, 1426881987, 1925078388, 2162078206, 2614888103, 3248222580,
   3835390401, 4022224774, 264347078, 604807628, 770255983, 1249150122, 1555081692, 1996064986,
   2554220882, 2821834349, 2952996808, 3210313671, 3336571891, 3584528711, 113926993, 338241895,
   666307205, 773529912, 1294757372, 1396182291, 1695183700, 1986661051, 2177026350, 2456956037,
   2730485921, 2820302411, 3259730800, 3345764771, 3516065817, 3600352804, 4094571909, 275423344,
   430227734, 506948616, 659060556, 883997877, 958139571, 1322822218, 1537002063, 1747873779,
   1955562222, 2024104815, 2227730452, 2361852424, 2428436474, 2756734187, 3204031479, 3329325298]

/-- SHA-256 initial register values (FIPS 180-4). -/
def shaInit : Sha256Regs :=
  ⟨1779033703, 3144134277, 1013904242, 2773480762, 1359893119, 2600822924, 528734635, 1541459225⟩

/-- SHA-256 lowercase sigma 0. -/
def smallSigma0 (x : Nat) : Nat := (rotr32 7 x) ^^^ (rotr32 18 x) ^^^ (x >>> 3)

/-- SHA-256 lowercase sigma 1. -/
def smallSigma1 (x : Nat) : Nat := (rotr32 17 x) ^^^ (rotr32 19 x) ^^^ (x >>> 10)

/-- SHA-256 uppercase Sigma 0. -/
def bigSigma0 (x : Nat) : Nat := (rotr32 2 x) ^^^ (rotr32 13 x) ^^^ (rotr32 22 x)

/-- SHA-256 uppercase Sigma 1. -/
def bigSigma1 (x : Nat) : Nat := (rotr32 6 x) ^^^ (rotr32 11 x) ^^^ (rotr32 25 x)

/-- One message-schedule extension step: append the next W word. -/
def schedStep (w : List Nat) : List Nat :=
  w ++ [(smallSigma1 (w.getD (w.length - 2) 0) + w.getD (w.length - 7) 0 +
         smallSigma0 (w.getD (w.length - 15) 0) + w.getD (w.length - 16) 0) % w32]

/-- Extend the 16-word schedule by n further words. -/
def sched : Nat → List Nat → List Nat
  | 0, w => w
  | n + 1, w => sched n (schedStep w)

/-- One SHA-256 compression round, consuming a (constant, schedule word) pair. -/
def roundStep (r : Sha256Regs) (kw : Nat × Nat) : Sha256Regs :=
  let s1 := bigSigma1 r.e
  let ch := (r.e &&& r.f) ^^^ ((r.e ^^^ 4294967295) &&& r.g)
  let t1 := (r.h + s1 + ch + kw.1 + kw.2) % w32
  let s0 := bigSigma0 r.a
  let maj := (r.a &&& r.b) ^^^ (r.a &&& r.c) ^^^ (r.b &&& r.c)
  let t2 := (s0 + maj) % w32
  ⟨(t1 + t2) % w32, r.a, r.b, r.c, (r.d + t1) % w32, r.e, r.f, r.g⟩

/-- SHA-256 compression of one 64-byte block. -/
def compressBlock (r : Sha256Regs) (block : List Nat) : Sha256Regs :=
  let w := sched 48 (bytesToWordsBE block)
  let t := List.foldl roundStep r (List.zip shaK w)
  ⟨add32 r.a t.a, add32 r.b t.b, add32 r.c t.c, add32 r.d t.d,
   add32 r.e t.e, add32 r.f t.f, add32 r.g t.g, add32 r.h t.h⟩

/-- Big-endian serialization of the eight SHA-256 registers (32 bytes). -/
def regsToBytes (r : Sha256Regs) : List Nat :=
  word32ToBytesBE r.a ++ word32ToBytesBE r.b ++ word32ToBytesBE r.c ++ word32ToBytesBE r.d ++
  word32ToBytesBE r.e ++ word32ToBytesBE r.f ++ word32ToBytesBE r.g ++ word32ToBytesBE r.h

/-- SHA-256 of a byte list: the behaviour of the sha2 crate's Sha256 used by
the source (FIPS 180-4). -/
def sha256 (msg : List Nat) : List Nat :=
  let padded := mdPad lenBytesBE msg
  regsToBytes (List.foldl compressBlock shaInit (takeBlocks (padded.length / 64) padded))

/-- The four working registers of MD5. -/
structure Md5Regs where
  a : Nat
  b : Nat
  c : Nat
  d : Nat

/-- MD5 round constants (RFC 1321). -/
def md5K : List Nat :=
  [3614090360, 3905402710, 606105819, 3250441966, 4118548399, 1200080426, 2821735955, 4249261313,
   1770035416, 2336552879, 4294925233, 2304563134, 1804603682, 4254626195, 2792965006, 1236535329,
   4129170786, 3225465664, 643717713, 3921069994, 3593408605, 38016083, 3634488961, 3889429448,
   568446438, 3275163606, 4107603335, 1163531501, 2850285829, 4243563512, 1735328473, 2368359562,
   4294588738, 2272392833, 1839030562, 4259657740, 2763975236, 1272893353, 4139469664, 3200236656,
   681279174, 3936430074, 3572445317, 76029189, 3654602809, 3873151461, 530742520, 3299628645,
   4096336452, 1126891415, 2878612391, 4237533241, 1700485571, 2399980690, 4293915773, 2240044497,
   1873313359, 4264355552, 2734768916, 1309151649, 4149444226, 3174756917, 718787259, 3951481745]

/-- MD5 per-round left-rotation amounts (RFC 1321). -/
def md5S : List Nat :=
  [7, 12, 17, 22, 7, 12, 17, 22, 7, 12, 17, 22, 7, 12, 17, 22,
   5, 9, 14, 20, 5, 9, 14, 20, 5, 9, 14, 20, 5, 9, 14, 20,
   4, 11, 16, 23, 4, 11, 16, 23, 4, 11, 16, 23, 4, 11, 16, 23,
   6, 10, 15, 21, 6, 10, 15, 21, 6, 10, 15, 21, 6, 10, 15, 21]

/-- MD5 initial register values (RFC 1321). -/
def md5Init : Md5Regs := ⟨1732584193, 4023233417, 2562383102, 271733878⟩

/-- One MD5 round on the 16 schedule words m. -/
def md5Round (m : List Nat) (r : Md5Regs) (i : Nat) : Md5Regs :=
  let f :=
    if i < 16 then (r.b &&& r.c) ||| ((r.b ^^^ 4294967295) &&& r.d)
    else if i < 32 then (r.d &&& r.b) ||| ((r.d ^^^ 4294967295) &&& r.c)
    else if i < 48 then r.b ^^^ r.c ^^^ r.d
    else r.c ^^^ (r.b ||| (r.d ^^^ 4294967295))
  let g :=
    if i < 16 then i
    else if i < 32 then (5 * i + 1) % 16
    else if i < 48 then (3 * i + 5) % 16
    else (7 * i) % 16
  let tmp := (r.a + f + md5K.getD i 0 + m.getD g 0) % w32
  ⟨r.d, (r.b + rotl32 (md5S.getD i 0) tmp) % w32, r.b, r.c⟩

/-- MD5 compression of one 64-byte block. -/
def md5Compress (r : Md5Regs) (block : List Nat) : Md5Regs :=
  let m := bytesToWordsLE block
  let t := List.foldl (md5Round m) r (List.range 64)
  ⟨add32 r.a t.a, add32 r.b t.b, add32 r.c t.c, add32 r.d t.d⟩

/-- MD5 of a byte list: the behaviour of the md5 crate used by the source's
md5 helper (RFC 1321); the source's helper feeds two inputs in sequence,
which equals hashing their concatenation. -/
def md5 (msg : List Nat) : List Nat :=
  let padded := mdPad lenBytesLE msg
  let r := List.foldl md5Compress md5Init (takeBlocks (padded.length / 64) padded)
  word32ToBytesLE r.a ++ word32ToBytesLE r.b ++ word32ToBytesLE r.c ++ word32ToBytesLE r.d

/-
  The hasher objects of hash.rs. A value of type Hasher is the state of one
  Hasher32 trait object: either a Sha256Hash (the list of bytes absorbed so
  far; sha2's update appends and its finalize clones the state and digests)
  or a RecursiveHash over some base hasher (fields inner, outer, opad,
  exactly as in the Rust struct). Clone is pure copying.
-/

/-- State of a Hasher32 trait object from hash.rs: Sha256Hash or
RecursiveHash (with its inner hasher, outer hasher and stored opad). -/
inductive Hasher where
  | sha256Hash (absorbed : List Nat)
  | recursiveHash (inner : Hasher) (outer : Hasher) (opad : List Nat)
deriving DecidableEq

/-- Hasher32::update: Sha256Hash absorbs the bytes; RecursiveHash forwards
all bytes to its inner hasher only. -/
def Hasher.update : Hasher → List Nat → Hasher
  | .sha256Hash acc, data => .sha256Hash (acc ++ data)
  | .recursiveHash inner outer opad, data => .recursiveHash (inner.update data) outer opad

/-- Hasher32::finalize with a pending update fused in: finalizeUpd h extra
is the (digest, post-state) pair of finalize applied after h.update(extra).
The fusion makes the recursion structural: RecursiveHash::finalize first
finalizes inner (yielding inner_result), then updates outer with opad and
inner_result before finalizing it, so the outer call is finalizeUpd outer
(opad ++ inner_result). Sha256Hash::finalize clones its state and digests,
leaving the absorbed bytes in place; RecursiveHash::finalize takes self by
mutable reference, so its post-state keeps the mutated inner and outer. -/
def Hasher.finalizeUpd : Hasher → List Nat → List Nat × Hasher
  | .sha256Hash acc, extra => (sha256 (acc ++ extra), .sha256Hash (acc ++ extra))
  | .recursiveHash inner outer opad, extra =>
      ((outer.finalizeUpd (opad ++ (inner.finalizeUpd extra).1)).1,
       .recursiveHash (inner.finalizeUpd extra).2
         (outer.finalizeUpd (opad ++ (inner.finalizeUpd extra).1)).2 opad)

/-- Hasher32::finalize as called in the source (no pending update): returns
the 32-byte digest together with the state the &mut self is left in. -/
def Hasher.finalize (h : Hasher) : List Nat × Hasher := h.finalizeUpd []

/-- FinalizeHasher::finalize_hasher from hash.rs: despite its name it only
clones the hasher (self.clone()); nothing is finalized. -/
def Hasher.finalize_hasher (h : Hasher) : Hasher := h

/-- The way the construction of RecursiveHash::new can fail: the statement
assert!(key.len() <= 64, "Key too long") fires, which is a Rust panic
(process abort), not a recoverable error value. -/
inductive Failure where
  | panicKeyTooLong
deriving DecidableEq

/-- The ipad/opad buffers of RecursiveHash::new: an array of 64 copies of the
pad constant whose first key.len() entries are XORed with the key bytes
(getD returns 0 beyond the key, and XOR with 0 is the identity). -/
def padKey (c : Nat) (key : List Nat) : List Nat :=
  (List.range 64).map (fun i => Nat.xor c (key.getD i 0))

/-- RecursiveHash::new: assert key.len() <= 64; build ipad and opad; clone
the base hasher and feed it ipad as the inner hasher; keep the base as the
outer hasher and store opad (updated only at finalize time). -/
def RecursiveHash.new (key : List Nat) (base : Hasher) : Except Failure Hasher :=
  if key.length ≤ 64 then
    Except.ok (Hasher.recursiveHash (base.update (padKey 0x36 key)) base (padKey 0x5c key))
  else Except.error Failure.panicKeyTooLong

/-- The bytes of b"VMess AEAD KDF", the fixed domain-separation constant. -/
def vmessConst : List Nat := [86, 77, 101, 115, 115, 32, 65, 69, 65, 68, 32, 75, 68, 70]

/-- The loop of kdf: for each label p in path, current becomes a new
RecursiveHash keyed by p over current.finalize_hasher() (a clone of the
current hasher — no finalization happens between steps). -/
def kdfLoop : Hasher → List (List Nat) → Except Failure Hasher
  | current, [] => Except.ok current
  | current, p :: rest =>
      match RecursiveHash.new p current.finalize_hasher with
      | Except.error e => Except.error e
      | Except.ok next => kdfLoop next rest

/-- kdf from hash.rs: start from a RecursiveHash keyed by b"VMess AEAD KDF"
over a fresh Sha256Hash, run the chaining loop over path, feed key via
update, and finalize. A firing assert anywhere aborts the computation. -/
def kdf (key : List Nat) (path : List (List Nat)) : Except Failure (List Nat) :=
  match RecursiveHash.new vmessConst (Hasher.sha256Hash []) with
  | Except.error e => Except.error e
  | Except.ok init =>
      match kdfLoop init path with
      | Except.error e => Except.error e
      | Except.ok current => Except.ok (((current.update key).finalize).1)

/-
  Spec-side definitions, for the refinement comparisons. These follow the
  specification's words, not the source.
-/

/-- The loop of the specification's reference algorithm, as the spec words
it: finalize the current instance to obtain a 32-byte value v, create a new
MAC instance keyed by p (over the underlying 32-byte hash primitive), feed v
into it via update, and make it current. -/
def chainLoop : Hasher → List (List Nat) → Except Failure Hasher
  | current, [] => Except.ok current
  | current, p :: rest =>
      match RecursiveHash.new p (Hasher.sha256Hash []) with
      | Except.error e => Except.error e
      | Except.ok next => chainLoop (next.update (current.finalize).1) rest

/-- The specification's reference algorithm for the KDF (flat finalize-and-
rekey chaining), built from the spec's words for comparison with kdf. -/
def kdfSpecChain (key : List Nat) (path : List (List Nat)) : Except Failure (List Nat) :=
  match RecursiveHash.new vmessConst (Hasher.sha256Hash []) with
  | Except.error e => Except.error e
  | Except.ok init =>
      match chainLoop init path with
      | Except.error e => Except.error e
      | Except.ok current => Except.ok (((current.update key).finalize).1)

/-- The HMAC construction as a function transformer: from a hash function g
and a key k (at most 64 bytes), the keyed hash m maps to
g(opad_k ++ g(ipad_k ++ m)). -/
def hmacF (g : List Nat → List Nat) (k : List Nat) (m : List Nat) : List Nat :=
  g (padKey 0x5c k ++ g (padKey 0x36 k ++ m))

/-- The mathematical form of what kdf computes: nested HMAC, where the hash
underlying step i is the whole keyed hash of step i-1, starting from
HMAC-SHA256 keyed by the domain constant. -/
def kdfFn (path : List (List Nat)) : List Nat → List Nat :=
  List.foldl hmacF (hmacF sha256 vmessConst) path

/-- The 16 bytes of UUID 96850032-1b92-46e9-a4f2-b99631456894. -/
def uuidBytes : List Nat :=
  [150, 133, 0, 50, 27, 146, 70, 233, 164, 242, 185, 150, 49, 69, 104, 148]

/-- The ASCII bytes of "c48619fe-8f02-49e0-b9e9-edf763e17e21". -/
def authStrBytes : List Nat :=
  [99, 52, 56, 54, 49, 57, 102, 101, 45, 56, 102, 48, 50, 45, 52, 57, 101, 48,
   45, 98, 57, 101, 57, 45, 101, 100, 102, 55, 54, 51, 101, 49, 55, 101, 50, 49]

/-- The ASCII bytes of "AES Auth ID Encryption". -/
def aesAuthLabel : List Nat :=
  [65, 69, 83, 32, 65, 117, 116, 104, 32, 73, 68, 32, 69, 110, 99, 114, 121,
   112, 116, 105, 111, 110]

/-- The key of the known-answer test: md5 of the UUID bytes followed by the
ASCII auth string (the source's md5 helper applied to the two inputs). -/
def katKey : List Nat := md5 (uuidBytes ++ authStrBytes)

/-
  Helper lemmas about the embedding.
-/

/-- The SHA-256 digest always has 32 bytes. -/
theorem sha256_length (msg : List Nat) : (sha256 msg).length = 32 := rfl

/-- Two consecutive updates absorb the concatenation of their data. -/
theorem Hasher.update_update (h : Hasher) : ∀ (a b : List Nat),
    (h.update a).update b = h.update (a ++ b) := by
  induction h with
  | sha256Hash acc => intro a b; simp [Hasher.update, List.append_assoc]
  | recursiveHash inner outer opad ih_inner ih_outer =>
      intro a b; simp [Hasher.update, ih_inner]

/-- A pending update folds into the data argument of finalizeUpd. -/
theorem Hasher.finalizeUpd_update (h : Hasher) : ∀ (a b : List Nat),
    (h.update a).finalizeUpd b = h.finalizeUpd (a ++ b) := by
  induction h with
  | sha256Hash acc => intro a b; simp [Hasher.update, Hasher.finalizeUpd, List.append_assoc]
  | recursiveHash inner outer opad ih_inner ih_outer =>
      intro a b; simp [Hasher.update, Hasher.finalizeUpd, ih_inner]

/-- Every digest produced by a hasher has 32 bytes. -/
theorem Hasher.finalizeUpd_length (h : Hasher) : ∀ (extra : List Nat),
    ((h.finalizeUpd extra).1).length = 32 := by
  induction h with
  | sha256Hash acc => intro extra; simp [Hasher.finalizeUpd, sha256_length]
  | recursiveHash inner outer opad ih_inner ih_outer =>
      intro extra; simp [Hasher.finalizeUpd, ih_outer]

/-- Unfolding of a successful RecursiveHash::new. -/
theorem new_ok (key : List Nat) (base : Hasher) (hk : key.length ≤ 64) :
    RecursiveHash.new key base
      = Except.ok (Hasher.recursiveHash (base.update (padKey 0x36 key)) base (padKey 0x5c key)) := by
  unfold RecursiveHash.new
  rw [if_pos hk]

/-- Unfolding of a failing RecursiveHash::new. -/
theorem new_err (key : List Nat) (base : Hasher) (hk : ¬ key.length ≤ 64) :
    RecursiveHash.new key base = Except.error Failure.panicKeyTooLong := by
  unfold RecursiveHash.new
  rw [if_neg hk]

/-- What a freshly keyed RecursiveHash digests after absorbing m: the outer
(base) hasher sees exactly opad followed by the inner digest, where the
inner (base) hasher sees exactly ipad followed by m. -/
theorem recursive_digest (base : Hasher) (ipad opad m : List Nat) :
    (((Hasher.recursiveHash (base.update ipad) base opad).update m).finalize).1
      = ((base.update (opad ++ (((base.update (ipad ++ m)).finalize).1))).finalize).1 := by
  simp only [Hasher.update, Hasher.finalize, Hasher.finalizeUpd, Hasher.finalizeUpd_update,
    List.append_nil, List.append_assoc]

/-- A fresh Sha256Hash followed by an update digests to sha256 of the data. -/
theorem sha_base_digest (m : List Nat) :
    (((Hasher.sha256Hash []).update m).finalize).1 = sha256 m := by
  simp [Hasher.update, Hasher.finalize, Hasher.finalizeUpd]

/-- Invariant of the kdf loop: if the current hasher digests updates through
the function g, the loop succeeds on any path of short-enough labels and the
resulting hasher digests through the nested-HMAC fold of g over the path. -/
theorem kdfLoop_represents (path : List (List Nat)) :
    ∀ (cur : Hasher) (g : List Nat → List Nat),
      (∀ m, ((cur.update m).finalize).1 = g m) →
      (∀ p ∈ path, p.length ≤ 64) →
      ∃ fin, kdfLoop cur path = Except.ok fin ∧
        ∀ m, ((fin.update m).finalize).1 = List.foldl hmacF g path m := by
  induction path with
  | nil => intro cur g hg _; exact ⟨cur, rfl, by simpa using hg⟩
  | cons p rest ih =>
      intro cur g hg hp
      have hple : p.length ≤ 64 := hp p (by simp)
      have hrep : ∀ m, (((Hasher.recursiveHash (cur.update (padKey 0x36 p)) cur
          (padKey 0x5c p)).update m).finalize).1 = hmacF g p m := by
        intro m
        rw [recursive_digest, hg, hg]
        rfl
      obtain ⟨fin, hloop, hfin⟩ := ih _ _ hrep (fun q hq => hp q (by simp [hq]))
      refine ⟨fin, ?_, ?_⟩
      · simp only [kdfLoop, Hasher.finalize_hasher, new_ok p cur hple]
        exact hloop
      · intro m
        rw [List.foldl_cons]
        exact hfin m

/-- kdf computes the nested-HMAC function kdfFn whenever every path label is
at most 64 bytes long. -/
theorem kdf_eq_kdfFn (key : List Nat) (path : List (List Nat))
    (hp : ∀ p ∈ path, p.length ≤ 64) :
    kdf key path = Except.ok (kdfFn path key) := by
  have hrep : ∀ m, (((Hasher.recursiveHash ((Hasher.sha256Hash []).update
      (padKey 0x36 vmessConst)) (Hasher.sha256Hash [])
      (padKey 0x5c vmessConst)).update m).finalize).1 = hmacF sha256 vmessConst m := by
    intro m
    rw [recursive_digest, sha_base_digest, sha_base_digest]
    rfl
  obtain ⟨fin, hloop, hfin⟩ := kdfLoop_represents path _ _ hrep hp
  simp only [kdf, new_ok vmessConst (Hasher.sha256Hash []) (by decide), hloop]
  rw [hfin key]
  rfl

/-- Folding hmacF preserves the 32-byte output length. -/
theorem foldl_hmacF_length (path : List (List Nat)) :
    ∀ g : List Nat → List Nat, (∀ m, (g m).length = 32) →
      ∀ m, ((List.foldl hmacF g path) m).length = 32 := by
  induction path with
  | nil => intro g hg m; simpa using hg m
  | cons p rest ih =>
      intro g hg m
      rw [List.foldl_cons]
      exact ih (hmacF g p) (fun x => by simp [hmacF, hg]) m

/-- The nested-HMAC function always returns 32 bytes. -/
theorem kdfFn_length (path : List (List Nat)) (key : List Nat) :
    (kdfFn path key).length = 32 :=
  foldl_hmacF_length path _ (fun m => by simp [hmacF, sha256_length]) key

/-- getD with default 0 ignores appended trailing zero bytes. -/
theorem getD_append_replicate_zero (k : List Nat) (j : Nat) : ∀ (n : Nat),
    (k ++ List.replicate j 0).getD n 0 = k.getD n 0 := by
  induction k with
  | nil =>
      intro n
      induction j generalizing n with
      | zero => rfl
      | succ j ih =>
          cases n with
          | zero => rfl
          | succ n => exact ih n
  | cons a t ih =>
      intro n
      cases n with
      | zero => rfl
      | succ n => simpa using ih n

/-- The ipad/opad buffers ignore trailing zero bytes of the key. -/
theorem padKey_append_replicate_zero (c : Nat) (k : List Nat) (j : Nat) :
    padKey c (k ++ List.replicate j 0) = padKey c k := by
  unfold padKey
  have hmap : ∀ (l : List Nat),
      l.map (fun i => Nat.xor c ((k ++ List.replicate j 0).getD i 0))
        = l.map (fun i => Nat.xor c (k.getD i 0)) := by
    intro l
    induction l with
    | nil => rfl
    | cons a t ihl => rw [List.map_cons, List.map_cons, ihl, getD_append_replicate_zero]
  exact hmap _

/-- RecursiveHash::new cannot tell a key from the key with trailing zero
bytes appended, as long as the lengths stay within the block size. -/
theorem new_append_replicate_zero (base : Hasher) (k : List Nat) (j : Nat)
    (hk : k.length + j ≤ 64) :
    RecursiveHash.new (k ++ List.replicate j 0) base = RecursiveHash.new k base := by
  have h1 : (k ++ List.replicate j 0).length ≤ 64 := by
    simpa [List.length_append, List.length_replicate] using hk
  have h2 : k.length ≤ 64 := by omega
  rw [new_ok _ _ h1, new_ok _ _ h2, padKey_append_replicate_zero, padKey_append_replicate_zero]

/-- kdf on a single label cannot tell the label from the label with trailing
zero bytes appended, within the block size. -/
theorem kdf_single_label_zero (key p : List Nat) (i : Nat) (hp : p.length + i ≤ 64) :
    kdf key [p ++ List.replicate i 0] = kdf key [p] := by
  have hnew : ∀ b : Hasher,
      RecursiveHash.new (p ++ List.replicate i 0) b = RecursiveHash.new p b :=
    fun b => new_append_replicate_zero b p i hp
  simp only [kdf, kdfLoop, Hasher.finalize_hasher, hnew]

/-
  The claims.
-/

/-- C1: known-answer conformance. With key = MD5(bytes of UUID
96850032-1b92-46e9-a4f2-b99631456894 followed by the ASCII string
c48619fe-8f02-49e0-b9e9-edf763e17e21) and path = ["AES Auth ID Encryption"],
the first 16 bytes of kdf(key, path) are
[117, 82, 144, 159, 147, 65, 74, 253, 91, 74, 70, 84, 114, 118, 203, 30]. -/
theorem c1_kat_conformance :
    (kdf katKey [aesAuthLabel]).map (fun d => d.take 16)
      = Except.ok [117, 82, 144, 159, 147, 65, 74, 253, 91, 74, 70, 84, 114, 118, 203, 30] :=
  rfl

/-- C2 counterexample: the claim says kdf equals the flat finalize-and-rekey
reference algorithm for every key and path of labels of at most 64 bytes,
but at key = [] and path = [[0]] (a 1-byte label) the two differ: kdf never
finalizes between chain steps (finalize_hasher only clones). -/
theorem c2_counterexample :
    (kdf [] [[0]]).toOption ≠ (kdfSpecChain [] [[0]]).toOption := by
  decide

/-- C2 (amended): for every key and every path whose labels are each at most
64 bytes, kdf(key, path) equals the nested-HMAC algorithm kdfFn: the chain
step does not finalize; it creates a new MAC instance keyed by the label
whose underlying hash is a clone of the whole current instance, so the
result is g_n(key) where g_0 = HMAC-SHA256 keyed by b"VMess AEAD KDF" and
g_i = HMAC over g_(i-1) keyed by the i-th label. -/
theorem c2_kdf_eq_nested_hmac (key : List Nat) (path : List (List Nat))
    (hp : ∀ p ∈ path, p.length ≤ 64) :
    kdf key path = Except.ok (kdfFn path key) :=
  kdf_eq_kdfFn key path hp

/-- Witness for C2 (amended) at key = [5], path = [[1]]. -/
theorem c2_witness : kdf [5] [[1]] = Except.ok (kdfFn [[1]] [5]) :=
  c2_kdf_eq_nested_hmac [5] [[1]] (by decide)

/-- C3 counterexample: a 65-byte MAC key does fail, but the failure is the
firing of assert!(key.len() <= 64, "Key too long") — a panic that aborts the
computation (Failure.panicKeyTooLong is the only failure the code can
produce) — not a KeyTooLong error surfaced as a recoverable result, which is
what the claim asserts. -/
theorem c3_counterexample :
    RecursiveHash.new (List.replicate 65 0) (Hasher.sha256Hash [])
      = Except.error Failure.panicKeyTooLong :=
  rfl

/-- C3 (amended): creating a MAC instance with a key of at most 64 bytes
(hence exactly 64) succeeds; with a longer key the constructor's assert
fires (an unconditional panic with message "Key too long"), rather than
returning a recoverable KeyTooLong result. -/
theorem c3_key_length_boundary (base : Hasher) (key : List Nat) :
    (key.length ≤ 64 → ∃ h, RecursiveHash.new key base = Except.ok h) ∧
    (64 < key.length → RecursiveHash.new key base = Except.error Failure.panicKeyTooLong) := by
  constructor
  · intro hk
    exact ⟨_, new_ok key base hk⟩
  · intro hk
    exact new_err key base (by omega)

/-- Witness for C3 (amended) at a 64-byte key (succeeds) and a 65-byte key
(assert fires). -/
theorem c3_witness :
    (∃ h, RecursiveHash.new (List.replicate 64 7) (Hasher.sha256Hash []) = Except.ok h) ∧
    RecursiveHash.new (List.replicate 65 7) (Hasher.sha256Hash [])
      = Except.error Failure.panicKeyTooLong :=
  ⟨(c3_key_length_boundary (Hasher.sha256Hash []) (List.replicate 64 7)).1 (by decide),
   (c3_key_length_boundary (Hasher.sha256Hash []) (List.replicate 65 7)).2 (by decide)⟩

/-- C4: for every key, kdf(key, []) is well-defined and is the standard HMAC
of key under the domain constant b"VMess AEAD KDF" over SHA-256: the outer
hash of opad followed by the inner hash of ipad followed by key. -/
theorem c4_empty_path (key : List Nat) :
    kdf key []
      = Except.ok (sha256 (padKey 0x5c vmessConst ++ sha256 (padKey 0x36 vmessConst ++ key))) := by
  have h := kdf_eq_kdfFn key [] (by simp)
  simpa [kdfFn, hmacF] using h

/-- C5 counterexample: the claim says a finalized MAC instance admits no
further finalize call, or any reuse fails loudly rather than returning a
digest. On the concrete instance built by RecursiveHash::new from key [1]
over a fresh Sha256Hash, calling finalize on the state left behind by a
first finalize returns a 32-byte digest with no error — and a different one
than the first call, because finalize borrows mutably (&mut self) and the
outer hasher has accumulated opad and the first inner digest. -/
theorem c5_counterexample :
    ((((Hasher.recursiveHash ((Hasher.sha256Hash []).update (padKey 0x36 [1]))
        (Hasher.sha256Hash []) (padKey 0x5c [1])).finalize).2.finalize).1).length = 32 ∧
    (((Hasher.recursiveHash ((Hasher.sha256Hash []).update (padKey 0x36 [1]))
        (Hasher.sha256Hash []) (padKey 0x5c [1])).finalize).2.finalize).1
      ≠ ((Hasher.recursiveHash ((Hasher.sha256Hash []).update (padKey 0x36 [1]))
        (Hasher.sha256Hash []) (padKey 0x5c [1])).finalize).1 := by
  constructor
  · exact Hasher.finalizeUpd_length _ []
  · decide

/-- C5 (amended): finalize takes the instance by mutable reference and does
not consume it; the state it leaves behind accepts further finalize and
update calls, each returning a 32-byte digest rather than failing. -/
theorem c5_reuse_not_prevented (h : Hasher) (d : List Nat) :
    ((((h.finalize).2).finalize).1).length = 32 ∧
    (((((h.finalize).2).update d).finalize).1).length = 32 := by
  constructor
  · exact Hasher.finalizeUpd_length _ []
  · rw [Hasher.finalize, Hasher.finalizeUpd_update]
    exact Hasher.finalizeUpd_length _ _

/-- C6: for every MAC instance returned by RecursiveHash::new (over any base
hasher, so including each instance the KDF creates while chaining) and every
data m absorbed before finalize, the returned digest is the digest of the
outer (base) hasher after it absorbs exactly opad followed by the 32-byte
inner digest and nothing else — the outer hasher is kept untouched from
construction until finalize. -/
theorem c6_fresh_outer (base : Hasher) (k m : List Nat) (H : Hasher)
    (hk : k.length ≤ 64)
    (hnew : RecursiveHash.new k base = Except.ok H) :
    ((H.update m).finalize).1
      = ((base.update (padKey 0x5c k
          ++ ((base.update (padKey 0x36 k ++ m)).finalize).1)).finalize).1 := by
  rw [new_ok k base hk] at hnew
  injection hnew with h1
  subst h1
  exact recursive_digest base (padKey 0x36 k) (padKey 0x5c k) m

/-- Witness for C6 at base = fresh Sha256Hash, k = [1], m = [2]. -/
theorem c6_witness :
    (((Hasher.recursiveHash ((Hasher.sha256Hash []).update (padKey 0x36 [1]))
        (Hasher.sha256Hash []) (padKey 0x5c [1])).update [2]).finalize).1
      = (((Hasher.sha256Hash []).update (padKey 0x5c [1]
          ++ (((Hasher.sha256Hash []).update (padKey 0x36 [1] ++ [2])).finalize).1)).finalize).1 :=
  c6_fresh_outer (Hasher.sha256Hash []) [1] [2]
    (Hasher.recursiveHash ((Hasher.sha256Hash []).update (padKey 0x36 [1]))
      (Hasher.sha256Hash []) (padKey 0x5c [1])) (by decide) rfl

/-- C7: kdf is deterministic — two invocations on the same key and path give
the same result, which depends on nothing besides key and path (the
embedding of the code is a pure function: no randomness, no time, no global
mutable state). -/
theorem c7_deterministic (key : List Nat) (path : List (List Nat))
    (r1 r2 : Except Failure (List Nat))
    (h1 : kdf key path = r1) (h2 : kdf key path = r2) : r1 = r2 :=
  h1.symm.trans h2

/-- Witness for C7 at key = [1], path = []. -/
theorem c7_witness : kdf [1] [] = kdf [1] [] :=
  c7_deterministic [1] [] (kdf [1] []) (kdf [1] []) rfl rfl

/-- C8: the key fed by the final update call is unconstrained: for every
path whose labels are each at most 64 bytes, kdf succeeds with a 32-byte
result for a key of any length whatsoever. -/
theorem c8_key_unconstrained (key : List Nat) (path : List (List Nat))
    (hp : ∀ p ∈ path, p.length ≤ 64) :
    ∃ d, kdf key path = Except.ok d ∧ d.length = 32 :=
  ⟨kdfFn path key, kdf_eq_kdfFn key path hp, kdfFn_length path key⟩

/-- Witness for C8 at a 100-byte key (well beyond the 64-byte MAC-key limit)
and path = [[1, 2, 3]]. -/
theorem c8_witness :
    ∃ d, kdf (List.replicate 100 7) [[1, 2, 3]] = Except.ok d ∧ d.length = 32 :=
  c8_key_unconstrained (List.replicate 100 7) [[1, 2, 3]] (by decide)

/-- C9: trailing-zero key equivalence. Extending a MAC key with trailing
zero bytes (within the 64-byte block) leaves RecursiveHash::new with an
identical instance, because zero-extension followed by XOR with the pad
constants is unaffected by trailing zeros; consequently kdf collides on
paths whose single label differs only in trailing zero bytes. -/
theorem c9_trailing_zero_collision (base : Hasher) (key k p : List Nat) (j i : Nat)
    (hk : k.length + j ≤ 64) (hp : p.length + i ≤ 64) :
    RecursiveHash.new (k ++ List.replicate j 0) base = RecursiveHash.new k base ∧
    kdf key [p ++ List.replicate i 0] = kdf key [p] :=
  ⟨new_append_replicate_zero base k j hk, kdf_single_label_zero key p i hp⟩

/-- Witness for C9 at k = [1], p = [2], key = [3], one appended zero. -/
theorem c9_witness :
    RecursiveHash.new [1, 0] (Hasher.sha256Hash []) = RecursiveHash.new [1] (Hasher.sha256Hash []) ∧
    kdf [3] [[2, 0]] = kdf [3] [[2]] :=
  c9_trailing_zero_collision (Hasher.sha256Hash []) [3] [1] [2] 1 1 (by decide) (by decide)

/-- C10: update is a homomorphism with respect to concatenation — on every
hasher state (a Sha256Hash or any RecursiveHash built over one), update(a)
followed by update(b) leaves the state identical to the single call
update(a ++ b), and therefore the eventual digest depends only on the
concatenation of all bytes absorbed. -/
theorem c10_update_append (h : Hasher) (a b : List Nat) :
    (h.update a).update b = h.update (a ++ b) ∧
    ((h.update a).update b).finalize = (h.update (a ++ b)).finalize := by
  refine ⟨Hasher.update_update h a b, ?_⟩
  rw [Hasher.update_update h a b]
